import Mathlib

/-
Verification of the JARVIS command resolution and session orchestration
engine (main.py, commands.py) against its specification.

The Python code is shallowly embedded: handlers are zero-argument callables
returning a string and are embedded as the string they produce (the dynamic
clock readings of the time and date handlers are abstracted as parameters);
Python dicts become insertion-ordered association lists (CPython preserves
insertion order and overwrites in place); str.lower and str.strip are
modelled on the character-list contents of strings (ASCII case folding,
which covers every string the engine compares).
-/

namespace Jarvis

/-- A recorded conversation turn, mirroring the dict literal appended in
ConversationEngine.add_to_history: a role ("user" or "assistant") and text. -/
structure Turn where
  role : String
  content : String
deriving DecidableEq

/-- Model of Python str.lower: ASCII case folding of every character. -/
def strLower (s : String) : String :=
  String.mk (s.data.map Char.toLower)

/-- Model of Python str.strip with no arguments: remove leading and trailing
whitespace characters. -/
def strStrip (s : String) : String :=
  String.mk (((s.data.dropWhile Char.isWhitespace).reverse.dropWhile
    Char.isWhitespace).reverse)

/-- Normalisation applied by CommandProcessor.process_command:
user_input.lower().strip(). -/
def normalize (s : String) : String := strStrip (strLower s)

/-- Does the needle occur at the start of the haystack? Helper for the
Python substring operator. -/
def startsWithList : List Char → List Char → Bool
  | [], _ => true
  | _ :: _, [] => false
  | n :: ns, h :: hs => (n == h) && startsWithList ns hs

/-- Substring containment on character lists, mirroring the Python
expression needle in haystack on strings. -/
def containsList (needle : List Char) : List Char → Bool
  | [] => startsWithList needle []
  | h :: hs => startsWithList needle (h :: hs) || containsList needle hs

/-- The Python membership test needle in hay on strings. -/
def strContains (hay needle : String) : Bool :=
  containsList needle.data hay.data

/-- Python dict lookup d[k] on an insertion-ordered association list whose
keys are unique. -/
def alookup {α : Type} : List (String × α) → String → Option α
  | [], _ => none
  | (k, v) :: rest, key => if k = key then some v else alookup rest key

/-- Python dict assignment d[k] = v on an insertion-ordered association
list: overwrite in place when the key exists, otherwise append at the end,
exactly the CPython insertion-order behaviour. -/
def setEntry {α : Type} : List (String × α) → String → α → List (String × α)
  | [], k, v => [(k, v)]
  | (k1, v1) :: rest, k, v =>
    if k1 = k then (k, v) :: rest else (k1, v1) :: setEntry rest k v

/-- First key in declaration order that occurs as a substring of the input,
returning its value: the shape of the for loops over aliases.items, over
commands.items, and over the response pattern table in the source. -/
def firstContainedValue {α : Type} : List (String × α) → String → Option α
  | [], _ => none
  | (k, v) :: rest, u =>
    if strContains u k then some v else firstContainedValue rest u

/-- CommandProcessor state: commands maps a lowercased name to the reply its
zero-argument handler produces, aliases maps a lowercased alias to the name
of the command it points at. -/
structure CommandProcessor where
  commands : List (String × String)
  aliases : List (String × String)
deriving DecidableEq

/-- CommandProcessor.register_command: store the handler under the
lowercased name and point each lowercased alias at that name. -/
def register_command (cp : CommandProcessor) (command : String)
    (handler : String) (aliases : List String) : CommandProcessor :=
  { commands := setEntry cp.commands (strLower command) handler,
    aliases := aliases.foldl
      (fun m a => setEntry m (strLower a) (strLower command)) cp.aliases }

/-- Reply of CommandProcessor._handle_time; the clock reading is abstract. -/
def handleTime (t : String) : String := "The current time is " ++ t

/-- Reply of CommandProcessor._handle_date; the clock reading is abstract. -/
def handleDate (d : String) : String := "Today is " ++ d

/-- Reply of CommandProcessor._handle_help. -/
def handleHelp : String :=
  "Available commands: time, date, help, exit. You can also ask me questions!"

/-- Reply of CommandProcessor._handle_exit. -/
def handleExit : String := "Goodbye! Shutting down..."

/-- CommandProcessor._register_default_commands run on a fresh processor, as
CommandProcessor.__init__ does. -/
def defaultProcessor (t d : String) : CommandProcessor :=
  register_command (register_command (register_command (register_command
    ⟨[], []⟩
    "time" (handleTime t) ["what time", "current time"])
    "date" (handleDate d) ["what date", "current date"])
    "help" handleHelp ["commands", "what can you do"])
    "exit" handleExit ["quit", "stop", "goodbye"]

/-- CommandProcessor.process_command: lowercase and strip the input, then
try the exact-name tier, the alias containment tier, and the name
containment tier in that order. A matched alias whose target name were
unregistered would raise KeyError in the source; register_command can never
produce such an alias, and the embedding returns none there. -/
def process_command (cp : CommandProcessor) (user_input : String) :
    Option String :=
  match alookup cp.commands (normalize user_input) with
  | some out => some out
  | none =>
    match firstContainedValue cp.aliases (normalize user_input) with
    | some cmd => alookup cp.commands cmd
    | none => firstContainedValue cp.commands (normalize user_input)

/-- ConversationEngine.max_history. -/
def max_history : Nat := 10

/-- ConversationEngine.add_to_history: append the new turn, then pop the
oldest entry when the length exceeds max_history. -/
def add_to_history (history : List Turn) (role content : String) :
    List Turn :=
  if max_history < (history ++ [Turn.mk role content]).length then
    (history ++ [Turn.mk role content]).tail
  else history ++ [Turn.mk role content]

/-- A whole sequence of append calls on an initially empty ledger. -/
def appendAll (ts : List Turn) : List Turn :=
  ts.foldl (fun h t => add_to_history h t.role t.content) []

theorem appendAll_eq_drop (ts : List Turn) :
    appendAll ts = ts.drop (ts.length - max_history) := by
  induction ts using List.reverseRecOn with
  | nil => rfl
  | append_singleton init last ih =>
    have hfold : appendAll (init ++ [last]) =
        add_to_history (appendAll init) last.role last.content := by
      unfold appendAll
      rw [List.foldl_append]
      rfl
    rw [hfold, ih]
    obtain ⟨r, c⟩ := last
    unfold add_to_history max_history
    have hlen : (init.drop (init.length - 10)).length =
        init.length - (init.length - 10) := List.length_drop _ _
    by_cases hn : init.length < 10
    · rw [if_neg (by simp only [List.length_append, hlen, List.length_cons,
        List.length_nil]; omega)]
      have h0 : init.length - 10 = 0 := by omega
      have h1 : (init ++ [Turn.mk r c]).length - 10 = 0 := by
        simp only [List.length_append, List.length_cons, List.length_nil]
        omega
      rw [h0, h1, List.drop_zero, List.drop_zero]
    · rw [if_pos (by simp only [List.length_append, hlen, List.length_cons,
        List.length_nil]; omega)]
      rw [← List.drop_one, List.drop_append_eq_append_drop,
        List.drop_append_eq_append_drop, List.drop_drop]
      have h2 : 1 - (init.drop (init.length - 10)).length = 0 := by
        rw [hlen]; omega
      have h3 : (init ++ [Turn.mk r c]).length - 10 - init.length = 0 := by
        simp only [List.length_append, List.length_cons, List.length_nil]
        omega
      have h4 : init.length - 10 + 1 =
          (init ++ [Turn.mk r c]).length - 10 := by
        simp only [List.length_append, List.length_cons, List.length_nil]
        omega
      rw [h2, h3, h4, List.drop_zero]

/-- C2: after any sequence of append calls on the conversation ledger, the
length equals min of the number of appends and the bound 10, and the
retained turns are exactly the most recently appended ones in insertion
order: appending past the bound evicts the oldest turn first. -/
theorem C2_ledger_bound (ts : List Turn) :
    (appendAll ts).length = min ts.length max_history ∧
    appendAll ts = ts.drop (ts.length - max_history) := by
  refine ⟨?_, appendAll_eq_drop ts⟩
  rw [appendAll_eq_drop, List.length_drop]
  unfold max_history
  omega

/-- C1: for every registered command name, an input whose normalized form
equals that name resolves to exactly the output of that name's handler,
whatever the alias table and the other registered names contain: the
exact-match tier fires before the alias containment tier and the name
containment tier. -/
theorem C1_exact_match_first (cp : CommandProcessor) (n out input : String)
    (hreg : alookup cp.commands n = some out)
    (hnorm : normalize input = n) :
    process_command cp input = some out := by
  unfold process_command
  rw [hnorm, hreg]

/-- Witness for C1 on the default registry: the padded mixed-case input
normalizes to the registered name time, and even though the alias table and
the other names are populated, the exact tier answers. -/
theorem C1_exact_match_first_witness :
    process_command (defaultProcessor "A" "B") " TIME " =
      some (handleTime "A") :=
  C1_exact_match_first (defaultProcessor "A" "B") "time" (handleTime "A")
    " TIME " (by decide) (by decide)

/-- The fixed pattern table of ConversationEngine._generate_simple_response,
in declaration order. -/
def responses : List (String × String) :=
  [("hello", "Hello! How can I assist you today?"),
   ("hi", "Hi there! What can I do for you?"),
   ("how are you", "I\x27m functioning perfectly, thank you for asking!"),
   ("what is your name", "I\x27m JARVIS, your AI assistant."),
   ("who created you", "I was created by the JARVIS Development Team."),
   ("thank you", "You\x27re welcome! Happy to help."),
   ("thanks", "Always happy to help!")]

/-- The Python expression user_input.split()[0] if user_input.split() else
that: the first whitespace-delimited token of the input, defaulting to the
word that when the input has no token. -/
def firstTokenOrThat (s : String) : String :=
  match s.data.dropWhile Char.isWhitespace with
  | [] => "that"
  | c :: cs => String.mk ((c :: cs).takeWhile (fun ch => !ch.isWhitespace))

/-- ConversationEngine._generate_simple_response: the first pattern, in
declaration order, occurring as a substring of the lowercased input wins;
otherwise the default reply echoes the first token of the raw input. -/
def generate_simple_response (user_input : String) : String :=
  match firstContainedValue responses (strLower user_input) with
  | some r => r
  | none =>
    "That\x27s interesting. I\x27m still learning about " ++
      firstTokenOrThat user_input ++ "."

/-- ConversationEngine.generate_response: record the user turn, compute the
reply, record the assistant turn, and return the reply. -/
def generate_response (history : List Turn) (user_input : String) :
    List Turn × String :=
  (add_to_history (add_to_history history "user" user_input) "assistant"
    (generate_simple_response user_input),
   generate_simple_response user_input)

/-- JARVISAssistant.process_input: a truthy command response, that is a
match whose reply is a non-empty string, is returned with the history
untouched; a none or an empty-string reply falls through to the
conversational engine, which records both turns. -/
def process_input (cp : CommandProcessor) (history : List Turn)
    (user_input : String) : List Turn × String :=
  match process_command cp user_input with
  | some r =>
    if r = "" then generate_response history user_input else (history, r)
  | none => generate_response history user_input

/-- The mutable fields of JARVISAssistant that the interaction loops read
and write: the conversation history list and the two loop flags. -/
structure AssistantState where
  history : List Turn
  is_running : Bool
  exit_flag : Bool
deriving DecidableEq

/-- The exit-phrase list tested by both interaction loops. -/
def exitPhrases : List String := ["exit", "quit", "stop", "goodbye"]

/-- One iteration body of JARVISAssistant.text_interaction_loop: strip the
line, skip empty input, process it, then test the lowercased stripped line
for exact membership in the exit-phrase list and latch the flags on a hit. -/
def textTurn (cp : CommandProcessor) (st : AssistantState) (line : String) :
    AssistantState × Option String :=
  if strStrip line = "" then (st, none)
  else if exitPhrases.contains (strLower (strStrip line)) then
    ({ st with
        history := (process_input cp st.history (strStrip line)).1,
        is_running := false,
        exit_flag := true },
     some (process_input cp st.history (strStrip line)).2)
  else
    ({ st with history := (process_input cp st.history (strStrip line)).1 },
     some (process_input cp st.history (strStrip line)).2)

/-- One iteration body of JARVISAssistant.voice_interaction_loop: a none
from the recognizer is skipped; a recognized utterance is processed as is,
and its lowercased form is tested for exact membership in the exit-phrase
list. -/
def voiceTurn (cp : CommandProcessor) (st : AssistantState)
    (heard : Option String) : AssistantState × Option String :=
  match heard with
  | none => (st, none)
  | some u =>
    if exitPhrases.contains (strLower u) then
      ({ st with
          history := (process_input cp st.history u).1,
          is_running := false,
          exit_flag := true },
       some (process_input cp st.history u).2)
    else
      ({ st with history := (process_input cp st.history u).1 },
       some (process_input cp st.history u).2)

/-- The while loop of text_interaction_loop over a finite script of input
lines: every iteration rechecks is_running and the exit flag, and the loop
stops, leaving the rest of the script unread, as soon as the guard fails. -/
def textLoopAux (cp : CommandProcessor) :
    AssistantState → List String → AssistantState × List String
  | st, [] => (st, [])
  | st, l :: ls =>
    if st.is_running && !st.exit_flag then
      ((textLoopAux cp (textTurn cp st l).1 ls).1,
       match (textTurn cp st l).2 with
       | some o => o :: (textLoopAux cp (textTurn cp st l).1 ls).2
       | none => (textLoopAux cp (textTurn cp st l).1 ls).2)
    else (st, [])

/-- JARVISAssistant.text_interaction_loop: set is_running, then run the
guarded loop over the script of input lines. -/
def text_interaction_loop (cp : CommandProcessor) (st : AssistantState)
    (lines : List String) : AssistantState × List String :=
  textLoopAux cp { st with is_running := true } lines

/-- The while loop of voice_interaction_loop over a finite script of
recognizer results (none models unrecognized audio). -/
def voiceLoopAux (cp : CommandProcessor) :
    AssistantState → List (Option String) → AssistantState × List String
  | st, [] => (st, [])
  | st, l :: ls =>
    if st.is_running && !st.exit_flag then
      ((voiceLoopAux cp (voiceTurn cp st l).1 ls).1,
       match (voiceTurn cp st l).2 with
       | some o => o :: (voiceLoopAux cp (voiceTurn cp st l).1 ls).2
       | none => (voiceLoopAux cp (voiceTurn cp st l).1 ls).2)
    else (st, [])

/-- JARVISAssistant.voice_interaction_loop: set is_running, then run the
guarded loop over the script of recognizer results. -/
def voice_interaction_loop (cp : CommandProcessor) (st : AssistantState)
    (heards : List (Option String)) : AssistantState × List String :=
  voiceLoopAux cp { st with is_running := true } heards

/-- C3: termination is decided only by exact normalized equality with an
exit phrase. A text line or a voice utterance whose normalized form is not
itself one of exit, quit, stop, goodbye, in particular any input that only
contains such a phrase as a proper substring, leaves both loop flags of the
session unchanged on that turn. -/
theorem C3_exit_exact_only (cp : CommandProcessor) (st1 st2 : AssistantState)
    (line utter : String)
    (h1 : exitPhrases.contains (strLower (strStrip line)) = false)
    (h2 : exitPhrases.contains (strLower utter) = false) :
    ((textTurn cp st1 line).1.exit_flag = st1.exit_flag ∧
     (textTurn cp st1 line).1.is_running = st1.is_running) ∧
    ((voiceTurn cp st2 (some utter)).1.exit_flag = st2.exit_flag ∧
     (voiceTurn cp st2 (some utter)).1.is_running = st2.is_running) := by
  have h1m : strLower (strStrip line) ∉ exitPhrases := by simpa using h1
  have h2m : strLower utter ∉ exitPhrases := by simpa using h2
  constructor
  · unfold textTurn
    by_cases he : strStrip line = ""
    · simp [he]
    · simp [he, h1m]
  · unfold voiceTurn
    simp [h2m]

/-- Witness for C3: the input please exit now contains the exit phrase as a
proper substring, and the utterance please stop now contains stop, yet the
turn leaves the running session untouched. -/
theorem C3_exit_exact_only_witness :
    ((textTurn (defaultProcessor "A" "B") ⟨[], true, false⟩
        "please exit now").1.exit_flag = false ∧
     (textTurn (defaultProcessor "A" "B") ⟨[], true, false⟩
        "please exit now").1.is_running = true) ∧
    ((voiceTurn (defaultProcessor "A" "B") ⟨[], true, false⟩
        (some "please stop now")).1.exit_flag = false ∧
     (voiceTurn (defaultProcessor "A" "B") ⟨[], true, false⟩
        (some "please stop now")).1.is_running = true) :=
  C3_exit_exact_only (defaultProcessor "A" "B") ⟨[], true, false⟩
    ⟨[], true, false⟩ "please exit now" "please stop now"
    (by decide) (by decide)

theorem append_ne_empty (a b : String) (h : a.data ≠ []) : a ++ b ≠ "" := by
  intro he
  apply h
  cases a with
  | mk da =>
    cases b with
    | mk db =>
      have hd : da ++ db = [] := congrArg String.data he
      exact (List.append_eq_nil.mp hd).1

theorem handleTime_ne_empty (t : String) : handleTime t ≠ "" :=
  append_ne_empty "The current time is " t (by decide)

theorem handleDate_ne_empty (d : String) : handleDate d ≠ "" :=
  append_ne_empty "Today is " d (by decide)

/-- The default registry after the four register_command calls, written out:
the registration chain reduces to this literal table. -/
theorem defaultProcessor_commands_eq (t d : String) :
    (defaultProcessor t d).commands =
      [("time", handleTime t), ("date", handleDate d),
       ("help", handleHelp), ("exit", handleExit)] := rfl

theorem alookup_default_ne_empty (t d k v : String)
    (h : alookup (defaultProcessor t d).commands k = some v) : v ≠ "" := by
  rw [defaultProcessor_commands_eq] at h
  simp only [alookup] at h
  split at h
  · exact Option.some.inj h ▸ handleTime_ne_empty t
  · split at h
    · exact Option.some.inj h ▸ handleDate_ne_empty d
    · split at h
      · exact Option.some.inj h ▸ (by decide : handleHelp ≠ "")
      · split at h
        · exact Option.some.inj h ▸ (by decide : handleExit ≠ "")
        · cases h

theorem firstContained_default_ne_empty (t d u v : String)
    (h : firstContainedValue (defaultProcessor t d).commands u = some v) :
    v ≠ "" := by
  rw [defaultProcessor_commands_eq] at h
  simp only [firstContainedValue] at h
  split at h
  · exact Option.some.inj h ▸ handleTime_ne_empty t
  · split at h
    · exact Option.some.inj h ▸ handleDate_ne_empty d
    · split at h
      · exact Option.some.inj h ▸ (by decide : handleHelp ≠ "")
      · split at h
        · exact Option.some.inj h ▸ (by decide : handleExit ≠ "")
        · cases h

/-- Every reply the resolver produces from the default registry is a
non-empty string, so the truthiness test in process_input coincides with the
some and none cases of the resolver for this program. -/
theorem defaultProcess_ne_empty (t d input r : String)
    (h : process_command (defaultProcessor t d) input = some r) : r ≠ "" := by
  unfold process_command at h
  split at h
  · next h1 => exact Option.some.inj h ▸ alookup_default_ne_empty t d _ _ h1
  · split at h
    · exact alookup_default_ne_empty t d _ _ h
    · exact firstContained_default_ne_empty t d _ _ h

/-- C4: frame effect of one orchestrator turn over the registry the
assistant actually constructs. When the resolver matches a command, the
conversation ledger is left unchanged and the handler reply is the turn
response; when no command matches, the turn performs exactly two ledger
appends, the user utterance under role user and the fallback reply under
role assistant, and nothing else. -/
theorem C4_command_frame (t d : String) (hist : List Turn) (input : String) :
    (∀ r, process_command (defaultProcessor t d) input = some r →
      process_input (defaultProcessor t d) hist input = (hist, r)) ∧
    (process_command (defaultProcessor t d) input = none →
      process_input (defaultProcessor t d) hist input =
        (add_to_history (add_to_history hist "user" input) "assistant"
          (generate_simple_response input),
         generate_simple_response input)) := by
  constructor
  · intro r hr
    have hne : r ≠ "" := defaultProcess_ne_empty t d input r hr
    simp [process_input, hr, hne]
  · intro hn
    simp [process_input, hn, generate_response]

/-- Witness for C4: an exact command hit leaves the ledger alone, and an
unmatched input appends exactly the user turn and the fallback reply. -/
theorem C4_command_frame_witness :
    process_input (defaultProcessor "A" "B") [] "time" =
      ([], handleTime "A") ∧
    process_input (defaultProcessor "A" "B") [] "xyzzy" =
      (add_to_history (add_to_history [] "user" "xyzzy") "assistant"
        (generate_simple_response "xyzzy"),
       generate_simple_response "xyzzy") :=
  ⟨(C4_command_frame "A" "B" [] "time").1 (handleTime "A") (by decide),
   (C4_command_frame "A" "B" [] "xyzzy").2 (by decide)⟩

/-- C10: when the resolver does match a command but the handler returns the
empty string, the truthiness test in process_input treats the turn as a
resolver miss: the fallback responder produces the reply and both the user
utterance and that reply are appended to the ledger. -/
theorem C10_empty_reply_is_miss (cp : CommandProcessor) (hist : List Turn)
    (input : String)
    (h : process_command cp input = some "") :
    process_input cp hist input =
      (add_to_history (add_to_history hist "user" input) "assistant"
        (generate_simple_response input),
       generate_simple_response input) := by
  simp [process_input, h, generate_response]

/-- Witness for C10: a registry whose command ping answers the empty string;
the input ping matches exactly, yet the fallback path runs and the ledger
gains the two conversational turns. -/
theorem C10_empty_reply_is_miss_witness :
    process_input ⟨[("ping", "")], []⟩ [] "ping" =
      (add_to_history (add_to_history [] "user" "ping") "assistant"
        (generate_simple_response "ping"),
       generate_simple_response "ping") :=
  C10_empty_reply_is_miss ⟨[("ping", "")], []⟩ [] "ping" (by decide)

theorem firstContainedValue_eq_some {α : Type} :
    ∀ (l : List (String × α)) (u : String) (v : α),
      firstContainedValue l u = some v →
      ∃ i, ∃ hi : i < l.length,
        strContains u (l.get ⟨i, hi⟩).1 = true ∧
        (∀ j, ∀ hj : j < l.length, j < i →
          strContains u (l.get ⟨j, hj⟩).1 = false) ∧
        (l.get ⟨i, hi⟩).2 = v
  | [], u, v, h => by simp [firstContainedValue] at h
  | (k, w) :: rest, u, v, h => by
    by_cases hc : strContains u k = true
    · refine ⟨0, by simp, by simpa [List.get] using hc, ?_, ?_⟩
      · intro j hj hj0
        omega
      · have hsome : some w = some v := by
          simpa [firstContainedValue, hc] using h
        simpa [List.get] using Option.some.inj hsome
    · have hc' : strContains u k = false := by
        cases hb : strContains u k with
        | true => exact absurd hb hc
        | false => rfl
      have h' : firstContainedValue rest u = some v := by
        simpa [firstContainedValue, hc'] using h
      obtain ⟨i, hi, hm, hbefore, hval⟩ :=
        firstContainedValue_eq_some rest u v h'
      refine ⟨i + 1, by simpa using Nat.succ_lt_succ hi,
        by simpa [List.get] using hm, ?_, by simpa [List.get] using hval⟩
      intro j hj hji
      cases j with
      | zero => simpa [List.get] using hc'
      | succ j0 =>
        have hj0 : j0 < rest.length := by
          simp only [List.length_cons] at hj
          omega
        simpa [List.get] using hbefore j0 hj0 (by omega)

theorem firstContainedValue_eq_none {α : Type} :
    ∀ (l : List (String × α)) (u : String),
      firstContainedValue l u = none →
      ∀ j, ∀ hj : j < l.length, strContains u (l.get ⟨j, hj⟩).1 = false
  | [], u, h, j, hj => by simp at hj
  | (k, w) :: rest, u, h, j, hj => by
    have hc : strContains u k = false := by
      cases hb : strContains u k with
      | false => rfl
      | true => simp [firstContainedValue, hb] at h
    cases j with
    | zero => simpa [List.get] using hc
    | succ j0 =>
      have h' : firstContainedValue rest u = none := by
        simpa [firstContainedValue, hc] using h
      have hj0 : j0 < rest.length := by
        simp only [List.length_cons] at hj
        omega
      simpa [List.get] using firstContainedValue_eq_none rest u h' j0 hj0

theorem dropWhile_eq_nil_of_all {p : Char → Bool} :
    ∀ l : List Char, (∀ c ∈ l, p c = true) → l.dropWhile p = []
  | [], _ => rfl
  | c :: cs, h => by
    rw [List.dropWhile_cons, if_pos (h c (by simp))]
    exact dropWhile_eq_nil_of_all cs (fun x hx => h x (by simp [hx]))

/-- C5: the fallback responder is a pure function of its input. Either some
pattern of the fixed table occurs as a substring of the lowercased input,
and the reply is the canned reply of the first such pattern in declaration
order, or no pattern occurs, and the reply is the deterministic default that
echoes the first whitespace-delimited token of the input; when the input is
empty after trimming, that is when every character is whitespace, the
default degenerates to the generic placeholder sentence. -/
theorem C5_fallback_pure (input : String) :
    (∃ i, ∃ hi : i < responses.length,
      strContains (strLower input) (responses.get ⟨i, hi⟩).1 = true ∧
      (∀ j, ∀ hj : j < responses.length, j < i →
        strContains (strLower input) (responses.get ⟨j, hj⟩).1 = false) ∧
      generate_simple_response input = (responses.get ⟨i, hi⟩).2) ∨
    ((∀ j, ∀ hj : j < responses.length,
        strContains (strLower input) (responses.get ⟨j, hj⟩).1 = false) ∧
      generate_simple_response input =
        "That\x27s interesting. I\x27m still learning about " ++
          firstTokenOrThat input ++ "." ∧
      ((∀ c ∈ input.data, c.isWhitespace = true) →
        generate_simple_response input =
          "That\x27s interesting. I\x27m still learning about that.")) := by
  cases hfc : firstContainedValue responses (strLower input) with
  | some r =>
    left
    obtain ⟨i, hi, hm, hbefore, hval⟩ :=
      firstContainedValue_eq_some responses (strLower input) r hfc
    exact ⟨i, hi, hm, hbefore, by rw [generate_simple_response, hfc, hval]⟩
  | none =>
    right
    refine ⟨firstContainedValue_eq_none responses (strLower input) hfc,
      by rw [generate_simple_response, hfc], ?_⟩
    intro hws
    have hdrop : input.data.dropWhile Char.isWhitespace = [] :=
      dropWhile_eq_nil_of_all input.data hws
    rw [generate_simple_response, hfc, firstTokenOrThat, hdrop]
    rfl

/-- Witness for C5, evaluating the characterization at a concrete input on
which the first pattern of the table fires. -/
theorem C5_fallback_pure_witness :
    (∃ i, ∃ hi : i < responses.length,
      strContains (strLower "Hello JARVIS")
        (responses.get ⟨i, hi⟩).1 = true ∧
      (∀ j, ∀ hj : j < responses.length, j < i →
        strContains (strLower "Hello JARVIS")
          (responses.get ⟨j, hj⟩).1 = false) ∧
      generate_simple_response "Hello JARVIS" =
        (responses.get ⟨i, hi⟩).2) ∨
    ((∀ j, ∀ hj : j < responses.length,
        strContains (strLower "Hello JARVIS")
          (responses.get ⟨j, hj⟩).1 = false) ∧
      generate_simple_response "Hello JARVIS" =
        "That\x27s interesting. I\x27m still learning about " ++
          firstTokenOrThat "Hello JARVIS" ++ "." ∧
      ((∀ c ∈ "Hello JARVIS".data, c.isWhitespace = true) →
        generate_simple_response "Hello JARVIS" =
          "That\x27s interesting. I\x27m still learning about that.")) :=
  C5_fallback_pure "Hello JARVIS"

/-- CommandProcessor with fallible handlers: calling a handler either
returns its reply or raises, carrying the error text of the exception. -/
structure CommandProcessorE where
  commands : List (String × Except String String)
  aliases : List (String × String)

/-- process_command over fallible handlers: a raising handler propagates its
exception, and a matched alias whose target name is unregistered raises the
KeyError that the dict subscript raises in the source. -/
def process_commandE (cp : CommandProcessorE) (user_input : String) :
    Except String (Option String) :=
  match alookup cp.commands (normalize user_input) with
  | some (Except.ok r) => Except.ok (some r)
  | some (Except.error e) => Except.error e
  | none =>
    match firstContainedValue cp.aliases (normalize user_input) with
    | some cmd =>
      match alookup cp.commands cmd with
      | some (Except.ok r) => Except.ok (some r)
      | some (Except.error e) => Except.error e
      | none => Except.error ("KeyError: " ++ cmd)
    | none =>
      match firstContainedValue cp.commands (normalize user_input) with
      | some (Except.ok r) => Except.ok (some r)
      | some (Except.error e) => Except.error e
      | none => Except.ok none

/-- process_input over fallible handlers: an exception raised inside the
resolver passes through to the caller, which is the interaction loop. -/
def process_inputE (cp : CommandProcessorE) (history : List Turn)
    (user_input : String) : Except String (List Turn × String) :=
  match process_commandE cp user_input with
  | Except.error e => Except.error e
  | Except.ok (some r) =>
    if r = "" then Except.ok (generate_response history user_input)
    else Except.ok (history, r)
  | Except.ok none => Except.ok (generate_response history user_input)

/-- Loop body of text_interaction_loop with its try/except boundary: any
exception raised while processing the turn is caught there, printed as the
error line of that turn, and the loop state is left untouched so the next
iteration proceeds. -/
def textTurnE (cp : CommandProcessorE) (st : AssistantState)
    (line : String) : AssistantState × Option String :=
  if strStrip line = "" then (st, none)
  else
    match process_inputE cp st.history (strStrip line) with
    | Except.error e => (st, some ("❌ Error in text loop: " ++ e))
    | Except.ok p =>
      if exitPhrases.contains (strLower (strStrip line)) then
        ({ st with
            history := p.1,
            is_running := false,
            exit_flag := true }, some p.2)
      else ({ st with history := p.1 }, some p.2)

/-- The guarded while loop of text_interaction_loop over fallible
handlers. -/
def textLoopAuxE (cp : CommandProcessorE) :
    AssistantState → List String → AssistantState × List String
  | st, [] => (st, [])
  | st, l :: ls =>
    if st.is_running && !st.exit_flag then
      ((textLoopAuxE cp (textTurnE cp st l).1 ls).1,
       match (textTurnE cp st l).2 with
       | some o => o :: (textLoopAuxE cp (textTurnE cp st l).1 ls).2
       | none => (textLoopAuxE cp (textTurnE cp st l).1 ls).2)
    else (st, [])

/-- commands.py CommandHandler.execute: an unknown command name reports not
found, and a raising handler is caught inside execute and turned into the
formatted error reply. -/
def commandHandlerExecute (commands : List (String × Except String String))
    (command : String) : String :=
  match alookup commands (normalize command) with
  | none =>
    "Command \x27" ++ normalize command ++
      "\x27 not found. Type \x27help\x27 for available commands."
  | some (Except.ok r) => r
  | some (Except.error e) =>
    "Error executing command \x27" ++ normalize command ++ "\x27: " ++ e

/-- C6: a handler error never escapes or terminates the orchestrator loop.
In main.py the exception is caught at the loop boundary, surfaced as the
visible error line of that turn with the loop state untouched, and the loop
goes on to process the remaining turns; in commands.py, execute catches a
raising handler and converts it into the formatted error executing command
reply. -/
theorem C6_handler_error_contained (cp : CommandProcessorE)
    (st : AssistantState) (line e : String) (ls : List String)
    (cmds : List (String × Except String String)) (c msg : String)
    (h1 : ¬ strStrip line = "")
    (h2 : process_inputE cp st.history (strStrip line) = Except.error e)
    (h3 : st.is_running = true) (h4 : st.exit_flag = false)
    (h5 : alookup cmds (normalize c) = some (Except.error msg)) :
    textTurnE cp st line = (st, some ("❌ Error in text loop: " ++ e)) ∧
    textLoopAuxE cp st (line :: ls) =
      ((textLoopAuxE cp st ls).1,
       ("❌ Error in text loop: " ++ e) :: (textLoopAuxE cp st ls).2) ∧
    commandHandlerExecute cmds c =
      "Error executing command \x27" ++ normalize c ++ "\x27: " ++ msg := by
  have hturn : textTurnE cp st line =
      (st, some ("❌ Error in text loop: " ++ e)) := by
    unfold textTurnE
    rw [if_neg h1, h2]
  refine ⟨hturn, ?_, ?_⟩
  · have hstep : textLoopAuxE cp st (line :: ls) =
        if st.is_running && !st.exit_flag then
          ((textLoopAuxE cp (textTurnE cp st line).1 ls).1,
           match (textTurnE cp st line).2 with
           | some o => o :: (textLoopAuxE cp (textTurnE cp st line).1 ls).2
           | none => (textLoopAuxE cp (textTurnE cp st line).1 ls).2)
        else (st, []) := rfl
    rw [hstep, h3, h4, hturn]
    simp
  · unfold commandHandlerExecute
    rw [h5]

/-- Witness for C6: a registry whose handler boom raises kaboom; the turn
reports the error, the loop moves on to the rest of the script, and
execute formats the error reply. -/
theorem C6_handler_error_contained_witness :
    textTurnE ⟨[("boom", Except.error "kaboom")], []⟩ ⟨[], true, false⟩
        "boom" =
      (⟨[], true, false⟩, some ("❌ Error in text loop: " ++ "kaboom")) ∧
    textLoopAuxE ⟨[("boom", Except.error "kaboom")], []⟩ ⟨[], true, false⟩
        ("boom" :: ["hi"]) =
      ((textLoopAuxE ⟨[("boom", Except.error "kaboom")], []⟩
          ⟨[], true, false⟩ ["hi"]).1,
       ("❌ Error in text loop: " ++ "kaboom") ::
         (textLoopAuxE ⟨[("boom", Except.error "kaboom")], []⟩
           ⟨[], true, false⟩ ["hi"]).2) ∧
    commandHandlerExecute [("boom", Except.error "kaboom")] "boom" =
      "Error executing command \x27" ++ normalize "boom" ++ "\x27: " ++
        "kaboom" :=
  C6_handler_error_contained ⟨[("boom", Except.error "kaboom")], []⟩
    ⟨[], true, false⟩ "boom" "kaboom" ["hi"]
    [("boom", Except.error "kaboom")] "boom" "kaboom"
    (by decide) rfl rfl rfl rfl

/-- C8: the terminal state is a one-way latch. A turn never resets a set
exit flag, and a loop entered, or re-entered, with the exit flag set
processes no turn at all: it stops immediately with no output, for the text
loop and the voice loop alike. -/
theorem C8_exit_latch (cp : CommandProcessor) (st : AssistantState)
    (l : String) (ov : Option String) (lines : List String)
    (vlines : List (Option String))
    (h : st.exit_flag = true) :
    (textTurn cp st l).1.exit_flag = true ∧
    (voiceTurn cp st ov).1.exit_flag = true ∧
    text_interaction_loop cp st lines = ({ st with is_running := true }, []) ∧
    voice_interaction_loop cp st vlines =
      ({ st with is_running := true }, []) := by
  refine ⟨?_, ?_, ?_, ?_⟩
  · unfold textTurn
    by_cases he : strStrip l = ""
    · simp [he, h]
    · by_cases hx : strLower (strStrip l) ∈ exitPhrases
      · simp [he, hx]
      · simp [he, hx, h]
  · unfold voiceTurn
    cases ov with
    | none => simpa using h
    | some u =>
      by_cases hx : strLower u ∈ exitPhrases
      · simp [hx]
      · simp [hx, h]
  · unfold text_interaction_loop
    cases lines with
    | nil => rfl
    | cons a as =>
      unfold textLoopAux
      rw [if_neg (by simp [h])]
  · unfold voice_interaction_loop
    cases vlines with
    | nil => rfl
    | cons a as =>
      unfold voiceLoopAux
      rw [if_neg (by simp [h])]

/-- Witness for C8: a session whose exit flag is already set ignores a whole
script in both loops and no turn resets the flag. -/
theorem C8_exit_latch_witness :
    (textTurn (defaultProcessor "A" "B") ⟨[], false, true⟩
        "hello").1.exit_flag = true ∧
    (voiceTurn (defaultProcessor "A" "B") ⟨[], false, true⟩
        (some "hello")).1.exit_flag = true ∧
    text_interaction_loop (defaultProcessor "A" "B") ⟨[], false, true⟩
        ["time", "date"] = (⟨[], true, true⟩, []) ∧
    voice_interaction_loop (defaultProcessor "A" "B") ⟨[], false, true⟩
        [some "time"] = (⟨[], true, true⟩, []) :=
  C8_exit_latch (defaultProcessor "A" "B") ⟨[], false, true⟩ "hello"
    (some "hello") ["time", "date"] [some "time"] rfl

/-- The configuration flags fixed by JARVISAssistant.__init__. -/
structure AssistantConfig where
  enable_voice : Bool
  enable_text : Bool
deriving DecidableEq

/-- Flag handling of JARVISAssistant.__init__: when voice is requested the
voice engines are constructed inside try/except, and a construction error
downgrades enable_voice for the session instead of propagating. -/
def initAssistant (enable_voice enable_text : Bool)
    (voiceInit : Except String Unit) : AssistantConfig :=
  { enable_voice :=
      enable_voice &&
        (match voiceInit with
         | Except.ok _ => true
         | Except.error _ => false),
    enable_text := enable_text }

/-- The two interaction loops JARVISAssistant.run can dispatch to. -/
inductive LoopMode where
  | voice
  | text
deriving DecidableEq

/-- Mode dispatch of JARVISAssistant.run: the voice loop runs only when
voice mode is requested and voice is still enabled, otherwise the text
loop runs. -/
def runMode (mode : String) (enable_voice : Bool) : LoopMode :=
  if strLower mode == "voice" && enable_voice then LoopMode.voice
  else LoopMode.text

/-- C9: when the voice engine construction raises at startup, voice is
disabled for the session rather than aborting, and starting the assistant in
voice mode then dispatches to the text interaction loop, whatever the
requested mode string and the error were. -/
theorem C9_voice_init_failure (mode e : String) :
    (initAssistant true true (Except.error e)).enable_voice = false ∧
    runMode mode (initAssistant true true (Except.error e)).enable_voice =
      LoopMode.text := by
  refine ⟨rfl, ?_⟩
  unfold runMode initAssistant
  simp

/-- Heap model of the conversation history list: the turn records live in a
store addressed by allocation order and the ledger holds references into it.
The source list holds references to mutable dicts, and list.copy duplicates
only the reference list, a shallow copy. -/
structure LedgerHeap where
  store : List Turn
  refs : List Nat
deriving DecidableEq

/-- The conversation the ledger denotes: every reference read in the store. -/
def denote (h : LedgerHeap) : List Turn :=
  h.refs.map (fun a => h.store.getD a (Turn.mk "" ""))

/-- add_to_history in the heap model: allocate the new turn record, append
its reference, pop the oldest reference past the bound. -/
def ledgerAppend (h : LedgerHeap) (role content : String) : LedgerHeap :=
  { store := h.store ++ [Turn.mk role content],
    refs :=
      if max_history < (h.refs ++ [h.store.length]).length then
        (h.refs ++ [h.store.length]).tail
      else h.refs ++ [h.store.length] }

/-- get_history: list.copy returns a fresh list of the same references. -/
def ledgerSnapshot (h : LedgerHeap) : List Nat := h.refs

/-- A caller writing through a turn reference it reached from a snapshot:
turn records are mutable dicts in the source. -/
def mutateTurn (h : LedgerHeap) (addr : Nat) (t : Turn) : LedgerHeap :=
  { h with store := h.store.set addr t }

/-- The ledger operations the core itself performs. -/
inductive LedgerOp where
  | append (role content : String)
  | clear

/-- One core ledger operation: add_to_history or clear_history. -/
def applyOp (h : LedgerHeap) : LedgerOp → LedgerHeap
  | LedgerOp.append r c => ledgerAppend h r c
  | LedgerOp.clear => { h with refs := [] }

/-- A sequence of core ledger operations. -/
def applyOps (h : LedgerHeap) (ops : List LedgerOp) : LedgerHeap :=
  ops.foldl applyOp h

/-- A one-turn ledger used to exhibit the shallow-copy aliasing. -/
def exHeap : LedgerHeap := ledgerAppend (LedgerHeap.mk [] []) "user" "hello"

/-- Counterexample to C7 as stated: get_history copies only the list, not
the turn records, so a caller that mutates a turn reached through the
returned snapshot does change the conversation the ledger denotes, and the
appended turn does not stay immutable. -/
theorem C7_snapshot_shallow_counterexample :
    ¬ denote (mutateTurn exHeap ((ledgerSnapshot exHeap).getD 0 0)
        (Turn.mk "user" "changed")) = denote exHeap := by decide

theorem applyOps_store_extends (ops : List LedgerOp) (h : LedgerHeap) :
    ∃ ext, (applyOps h ops).store = h.store ++ ext := by
  induction ops generalizing h with
  | nil => exact ⟨[], by simp [applyOps]⟩
  | cons op rest ih =>
    have hstep : applyOps h (op :: rest) = applyOps (applyOp h op) rest := rfl
    obtain ⟨ext1, he1⟩ := ih (applyOp h op)
    cases op with
    | append r c =>
      refine ⟨Turn.mk r c :: ext1, ?_⟩
      rw [hstep, he1]
      simp [applyOp, ledgerAppend]
    | clear =>
      refine ⟨ext1, ?_⟩
      rw [hstep, he1]
      rfl

/-- C7 amended: the snapshot is a fresh list but shares the turn records
with the ledger, so only the core guarantee survives: the core itself never
mutates an appended turn. Under any sequence of core ledger operations,
every turn record already in the store is preserved unchanged. -/
theorem C7_core_never_mutates_turns (h : LedgerHeap) (ops : List LedgerOp)
    (a : Nat) (ha : a < h.store.length) :
    (applyOps h ops).store.getD a (Turn.mk "" "") =
      h.store.getD a (Turn.mk "" "") := by
  obtain ⟨ext, hext⟩ := applyOps_store_extends ops h
  rw [hext]
  rw [List.getD_eq_getElem?_getD, List.getD_eq_getElem?_getD,
    List.getElem?_append_left ha]

/-- Witness for the amended C7: a store cell survives an append followed by
a clear. -/
theorem C7_core_never_mutates_turns_witness :
    (applyOps (LedgerHeap.mk [Turn.mk "user" "hello"] [0])
        [LedgerOp.append "user" "next", LedgerOp.clear]).store.getD 0
        (Turn.mk "" "") =
      (LedgerHeap.mk [Turn.mk "user" "hello"] [0]).store.getD 0
        (Turn.mk "" "") :=
  C7_core_never_mutates_turns (LedgerHeap.mk [Turn.mk "user" "hello"] [0])
    [LedgerOp.append "user" "next", LedgerOp.clear] 0 (by decide)

end Jarvis
